import Mathlib

/-!
Shallow embedding of the sticky-notes core (notes/styles collection model) from
the repository sources:

* src/src/notes.rs                     -- module constants
* src/src/notes/note_data.rs           -- NoteData entity
* src/src/notes/note_style.rs          -- NoteStyle entity
* src/src/notes/collection.rs          -- NotesCollection aggregate root
* src/src/notes/indicator_stickynotes.rs -- legacy codec timestamp handling
* src/src/notes/import.rs              -- alternate legacy import module

Conventions of the embedding:

* Rust `Uuid` is embedded as `Nat` (the nil uuid is `0`, `Uuid::new_v4()`
  becomes an explicit fresh-id parameter).
* Rust `HashMap<Uuid, V>` is embedded as an association list
  `List (Nat × V)` with unique keys; the unspecified hash-map iteration
  order becomes the list order (`keys().next()` is the head key,
  `keys().nth(i)` is the key at position `i`).
* `DateTime` values are embedded as `Int` seconds since the epoch;
  `NaiveDateTime` values as `Int` naive (timezone-less) seconds.
* `f32` color components are embedded as `Rat`; no claim below depends on
  floating-point rounding of colors.
* Rust strings used only as atoms stay `String`; note content, whose
  character structure matters for `get_title`, is `List Char` (Rust slices
  note content at a char boundary, which on the char list is `List.take`).
* Fallible `&mut self` methods of `NotesCollection` become functions
  returning a pair `Except Err α × NotesCollection`: the second component is
  the state after the call (the Rust error paths perform no field
  assignment, so they return the input state verbatim).
-/

set_option autoImplicit false

namespace StickyNotes

/-! Association-list embedding of `HashMap<Uuid, V>`. -/

abbrev Uuid := Nat

/-- Embedding of `HashMap::get`: the value stored under key `k`. -/
def lookupK {V : Type} (k : Uuid) : List (Uuid × V) → Option V
  | [] => none
  | (k1, v) :: t => if k1 = k then some v else lookupK k t

/-- Embedding of `HashMap::contains_key`. -/
def hasK {V : Type} (k : Uuid) (l : List (Uuid × V)) : Bool :=
  (lookupK k l).isSome

/-- Embedding of `HashMap::remove`: drop the entry stored under key `k`. -/
def eraseK {V : Type} (k : Uuid) : List (Uuid × V) → List (Uuid × V)
  | [] => []
  | (k1, v) :: t => if k1 = k then eraseK k t else (k1, v) :: eraseK k t

/-- Embedding of `HashMap::insert`: replace any entry under `k` by `(k, v)`. -/
def insertK {V : Type} (k : Uuid) (v : V) (l : List (Uuid × V)) : List (Uuid × V) :=
  eraseK k l ++ [(k, v)]

/-- Embedding of `values_mut().for_each(..)`: apply `f` to every stored value. -/
def mapVals {V : Type} (f : V → V) (l : List (Uuid × V)) : List (Uuid × V) :=
  l.map (fun p => (p.1, f p.2))

/-- Embedding of `keys()` iteration order. -/
def keysOf {V : Type} (l : List (Uuid × V)) : List Uuid :=
  l.map Prod.fst

/-- Embedding of `keys().next().copied().unwrap_or_default()` (nil uuid is `0`). -/
def headKeyD {V : Type} : List (Uuid × V) → Uuid
  | [] => 0
  | (k, _) :: _ => k

/-! Module constants from src/src/notes.rs. -/

def DEF_NOTE_STYLE_NAME : String := "White"
def EMTPY_TITLE : List Char := "<Empty>".data
def NO_TITLE : List Char := "Untitled".data
def MAX_TITLE_CHARS : Nat := 12
def DEF_NOTE_WIDTH : Nat := 400
def DEF_NOTE_HEIGHT : Nat := 300

/-- Modelled from the spec: the default font size constant
(`DEF_NOTE_FONT_SIZE`) is referenced by src/src/notes/note_style.rs but its
defining line is not present under src/; its exact value is irrelevant to every
claim below, only that it is one fixed constant. -/
def DEF_NOTE_FONT_SIZE : Nat := 14

/-! Color and font model (src/src/notes/note_style.rs). -/

/-- Embedding of the toolkit RGB `Color` (f32 components as rationals). -/
structure ColorM where
  r : Rat
  g : Rat
  b : Rat
deriving DecidableEq

/-- Embedding of `Color::WHITE`. -/
def ColorM.white : ColorM := ⟨1, 1, 1⟩

/-- The symbolic font style enum `FontStyle`. -/
inductive FontStyle
  | Default
  | Light
  | Semibold
  | Bold
  | Monospace
deriving DecidableEq

/-- The font parameter set `Font`. -/
structure Font where
  style : FontStyle
  size : Nat
deriving DecidableEq

/-- Embedding of `Font::default()`. -/
def Font.defaultFont : Font := ⟨FontStyle.Default, DEF_NOTE_FONT_SIZE⟩

/-- The `NoteStyle` entity. -/
structure NoteStyle where
  name : String
  font : Font
  bgcolor : ColorM
  is_dirty : Bool
deriving DecidableEq

/-- Embedding of `NoteStyle::new` (`is_dirty` starts false). -/
def NoteStyle.new (name : String) (font : Font) (bgcolor : ColorM) : NoteStyle :=
  ⟨name, font, bgcolor, false⟩

/-- Embedding of `NoteStyle::default()`. -/
def NoteStyle.defaultStyle : NoteStyle :=
  ⟨DEF_NOTE_STYLE_NAME, Font.defaultFont, ColorM.white, false⟩

/-- Embedding of `NoteStyle::is_changed`. -/
def NoteStyle.is_changed (s : NoteStyle) : Bool := s.is_dirty

/-- Embedding of `NoteStyle::commit`. -/
def NoteStyle.commit (s : NoteStyle) : NoteStyle := { s with is_dirty := false }

/-! Legacy import records (src/src/notes/indicator_stickynotes.rs). -/

/-- Legacy per-note `properties` record. -/
structure SNoteProperties where
  position : List Nat
  size : List Nat
  locked : Bool
deriving DecidableEq

/-- Legacy `Note` record (its `last_modified` is already the parsed instant). -/
structure SNote where
  uuid : Uuid
  body : List Char
  last_modified : Int
  properties : SNoteProperties
  cat : Uuid
deriving DecidableEq

/-- Legacy `properties` global record. -/
structure SGlobalProperties where
  all_visible : Bool
  default_cat : Uuid
deriving DecidableEq

/-- Legacy category record (`bgcolor_hsv` f32 entries as rationals). -/
structure SCategoryProperties where
  name : String
  bgcolor_hsv : List Rat
  font : String
deriving DecidableEq

/-- Legacy `NotesDatabase` record (`categories` hash map as association list). -/
structure StickyNotesDatabase where
  notes : List SNote
  properties : SGlobalProperties
  categories : List (Uuid × SCategoryProperties)
deriving DecidableEq

/-! The `NoteData` entity (src/src/notes/note_data.rs). -/

structure NoteData where
  content : List Char
  modified : Int
  style_id : Uuid
  position : Nat × Nat
  size : Nat × Nat
  is_locked : Bool
  is_visible : Bool
  is_dirty : Bool
deriving DecidableEq

/-- Embedding of `NoteData::new` (`Utc::now()` is the explicit `now` argument). -/
def NoteData.new (style : Uuid) (now : Int) : NoteData :=
  { content := []
    modified := now
    style_id := style
    position := (0, 0)
    size := (DEF_NOTE_WIDTH, DEF_NOTE_HEIGHT)
    is_locked := false
    is_visible := true
    is_dirty := false }

/-- Embedding of `src.properties.position.get(0..2)` / `size.get(0..2)`: a Rust
slice-index `get(0..2)` is `some` (of exactly two elements) iff the vector has
length at least 2. -/
def sliceTwo (l : List Nat) : Option (List Nat) :=
  if 2 ≤ l.length then some (l.take 2) else none

/-- Embedding of `NoteData::new_from_import`, including the source's dead
one-element match arms (unreachable because `get(0..2)` never yields a
one-element slice). -/
def NoteData.new_from_import (src : SNote) (is_visible : Bool) : NoteData :=
  let position : Nat × Nat :=
    match sliceTwo src.properties.position with
    | some [first, second] => (first, second)
    | some [first] => (first, 0)
    | _ => (0, 0)
  let size : Nat × Nat :=
    match sliceTwo src.properties.size with
    | some [first, second] => (first, second)
    | some [first] => (first, 1)
    | _ => (1, 1)
  { content := src.body
    modified := src.last_modified
    style_id := src.cat
    position := position
    size := size
    is_locked := src.properties.locked
    is_visible := is_visible
    is_dirty := false }

/-- Embedding of the trailing carriage-return strip done by Rust `str::lines`
on a line that ended with a line feed. -/
def stripCrSuffix (l : List Char) : List Char :=
  match l.reverse with
  | '\r' :: t => t.reverse
  | _ => l

/-- Embedding of `content.lines().next()`: `none` on the empty string;
otherwise the text before the first line feed, with a trailing carriage return
stripped only when a line feed terminator was present. -/
def rustLinesFirst (s : List Char) : Option (List Char) :=
  match s with
  | [] => none
  | _ :: _ =>
    let piece := s.takeWhile (fun c => c != '\n')
    some (if s.any (fun c => c == '\n') then stripCrSuffix piece else piece)

/-- Embedding of `line.char_indices().nth(i)`: `some` iff the line has more
than `i` characters; the Rust byte index of that character, used to slice the
line, corresponds on the char list to taking the first `i` characters. -/
def charIndexAt (l : List Char) (i : Nat) : Option Nat :=
  if i < l.length then some i else none

/-- Embedding of `NoteData::get_title`. -/
def NoteData.get_title (n : NoteData) : List Char :=
  if n.content = [] then EMTPY_TITLE
  else
    match rustLinesFirst n.content with
    | none => NO_TITLE
    | some line =>
      match charIndexAt line MAX_TITLE_CHARS with
      | none => line
      | some i => line.take i

/-- Embedding of `NoteData::set_content` (`Utc::now()` as explicit argument). -/
def NoteData.set_content (n : NoteData) (content : List Char) (now : Int) : NoteData :=
  { n with content := content, modified := now, is_dirty := true }

/-- Embedding of `NoteData::set_position` (no-op when unchanged). -/
def NoteData.set_position (n : NoteData) (left top : Nat) : NoteData :=
  if n.position = (left, top) then n
  else { n with position := (left, top), is_dirty := true }

/-- Embedding of `NoteData::set_size` (no-op when unchanged). -/
def NoteData.set_size (n : NoteData) (width height : Nat) : NoteData :=
  if n.size = (width, height) then n
  else { n with size := (width, height), is_dirty := true }

/-- Embedding of `NoteData::set_style` (no-op when unchanged). -/
def NoteData.set_style (n : NoteData) (style_id : Uuid) : NoteData :=
  if n.style_id = style_id then n
  else { n with style_id := style_id, is_dirty := true }

/-- Embedding of `NoteData::is_changed`. -/
def NoteData.is_changed (n : NoteData) : Bool := n.is_dirty

/-- Embedding of `NoteData::commit`. -/
def NoteData.commit (n : NoteData) : NoteData := { n with is_dirty := false }

/-! The `NotesCollection` aggregate root (src/src/notes/collection.rs). -/

/-- Embedding of `NotesCollectionError`. -/
inductive NotesCollectionError
  | DeleteLastStyle
  | StyleNotFound (id : Uuid)
  | StyleIndexNotFound (i : Nat)
  | NoteNotFound (id : Uuid)
deriving DecidableEq

structure NotesCollection where
  notes : List (Uuid × NoteData)
  styles : List (Uuid × NoteStyle)
  default_style : Uuid
  is_dirty : Bool
  deleted_notes : List (Uuid × NoteData)
deriving DecidableEq

namespace NotesCollection

/-- Embedding of serde deserialization in `NotesCollection::try_read`
(src/src/notes/collection.rs lines 177-179): on success the three serialized
fields are taken verbatim from the blob, and the two `serde(skip)` fields take
their defaults (`is_dirty = false`, `deleted_notes` empty). No repair takes
place: `try_read` does not call `ensure_default_style`, and neither do its
callers (src/src/app.rs, src/src/app/service.rs `load_notes_or_default`). -/
def try_read_model (notes : List (Uuid × NoteData)) (styles : List (Uuid × NoteStyle))
    (default_style : Uuid) : NotesCollection :=
  { notes := notes
    styles := styles
    default_style := default_style
    is_dirty := false
    deleted_notes := [] }

/-- Embedding of `NotesCollection::is_unsaved`: the collection flag, any live
note dirty bit, or any style dirty bit — deleted notes are not consulted. -/
def is_unsaved (c : NotesCollection) : Bool :=
  c.is_dirty
    || c.notes.any (fun p => p.2.is_changed)
    || c.styles.any (fun p => p.2.is_changed)

/-- Embedding of `NotesCollection::is_default_collection`. -/
def is_default_collection (c : NotesCollection) : Bool :=
  decide (c.notes.length ≤ 1) && decide (c.styles.length ≤ 1)

/-- Embedding of `NotesCollection::commit_changes`: commit every live note and
every style, clear the collection flag; deleted notes are untouched. -/
def commit_changes (c : NotesCollection) : NotesCollection :=
  { c with
    notes := mapVals NoteData.commit c.notes
    styles := mapVals NoteStyle.commit c.styles
    is_dirty := false }

/-- Embedding of `NotesCollection::get_notes_count`. -/
def get_notes_count (c : NotesCollection) : Nat := c.notes.length

/-- Embedding of `NotesCollection::try_get_note`. -/
def try_get_note (c : NotesCollection) (note_id : Uuid) :
    Except NotesCollectionError NoteData :=
  match lookupK note_id c.notes with
  | some n => .ok n
  | none => .error (.NoteNotFound note_id)

/-- Embedding of `NotesCollection::for_each_note_mut`. -/
def for_each_note_mut (c : NotesCollection) (f : NoteData → NoteData) : NotesCollection :=
  { c with notes := mapVals f c.notes }

/-- Embedding of `NotesCollection::for_each_style_mut`. -/
def for_each_style_mut (c : NotesCollection) (f : NoteStyle → NoteStyle) : NotesCollection :=
  { c with styles := mapVals f c.styles }

/-- Embedding of `NotesCollection::new_note` (`Uuid::new_v4()` and `Utc::now()`
as explicit arguments): insert a fresh note carrying the default style. -/
def new_note (c : NotesCollection) (id : Uuid) (now : Int) : NotesCollection :=
  { c with notes := insertK id (NoteData.new c.default_style now) c.notes }

/-- Embedding of `NotesCollection::delete_note`: move the entry from `notes`
to `deleted_notes` and set the collection flag; no-op when the id is not
live. -/
def delete_note (c : NotesCollection) (note_id : Uuid) : NotesCollection :=
  match lookupK note_id c.notes with
  | some note =>
    { c with
      notes := eraseK note_id c.notes
      is_dirty := true
      deleted_notes := insertK note_id note c.deleted_notes }
  | none => c

/-- Embedding of `NotesCollection::try_restore_deleted_note`: move the entry
from `deleted_notes` back to `notes`, set the collection flag, and return a
reference to the reinserted note (looked up again, as the source does). -/
def try_restore_deleted_note (c : NotesCollection) (note_id : Uuid) :
    Except NotesCollectionError NoteData × NotesCollection :=
  match lookupK note_id c.deleted_notes with
  | some note =>
    let c1 : NotesCollection :=
      { c with
        deleted_notes := eraseK note_id c.deleted_notes
        is_dirty := true
        notes := insertK note_id note c.notes }
    (match lookupK note_id c1.notes with
     | some n2 => .ok n2
     | none => .error (.NoteNotFound note_id), c1)
  | none => (.error (.NoteNotFound note_id), c)

/-- Embedding of `NotesCollection::get_styles_count`. -/
def get_styles_count (c : NotesCollection) : Nat := c.styles.length

/-- Embedding of `NotesCollection::try_get_default_style`. -/
def try_get_default_style (c : NotesCollection) :
    Except NotesCollectionError NoteStyle :=
  match lookupK c.default_style c.styles with
  | some s => .ok s
  | none => .error (.StyleNotFound c.default_style)

/-- Embedding of `NotesCollection::try_set_default_style_by_index`:
`keys().nth(i)`, then update (and set the flag) only on an actual change. -/
def try_set_default_style_by_index (c : NotesCollection) (style_index : Nat) :
    Except NotesCollectionError Unit × NotesCollection :=
  match (keysOf c.styles)[style_index]? with
  | some id =>
    if c.default_style ≠ id then
      (.ok (), { c with default_style := id, is_dirty := true })
    else
      (.ok (), c)
  | none => (.error (.StyleIndexNotFound style_index), c)

/-- Embedding of `NotesCollection::new_style` (`Uuid::new_v4()` as explicit
argument): clone the font and color of the resolvable default style, else use
hardcoded defaults. -/
def new_style (c : NotesCollection) (id : Uuid) (name : String) : NotesCollection :=
  let style :=
    match lookupK c.default_style c.styles with
    | some source => NoteStyle.new name source.font source.bgcolor
    | none => NoteStyle.new name Font.defaultFont ColorM.white
  { c with styles := insertK id style c.styles }

/-- Embedding of `NotesCollection::delete_style`: refuse on fewer than two
styles; otherwise remove the entry, set the collection flag, pick the first
remaining key as default when the default was deleted, and reassign every live
note pointing at the deleted style to the (possibly new) default style. -/
def delete_style (c : NotesCollection) (style_id : Uuid) :
    Except NotesCollectionError Unit × NotesCollection :=
  if c.styles.length < 2 then
    (.error .DeleteLastStyle, c)
  else
    match lookupK style_id c.styles with
    | some _ =>
      let styles1 := eraseK style_id c.styles
      let d := if style_id = c.default_style then headKeyD styles1 else c.default_style
      let notes1 :=
        mapVals (fun note => if note.style_id = style_id then note.set_style d else note) c.notes
      (.ok (),
        { c with
          styles := styles1
          is_dirty := true
          default_style := d
          notes := notes1 })
    | none => (.error (.StyleNotFound style_id), c)

/-- Embedding of `NotesCollection::try_set_note_style_by_index`:
`keys().nth(i)`, then `try_get_note_mut` and `set_style` on the note. -/
def try_set_note_style_by_index (c : NotesCollection) (note_id : Uuid) (style_index : Nat) :
    Except NotesCollectionError Unit × NotesCollection :=
  match (keysOf c.styles)[style_index]? with
  | some style_id =>
    match lookupK note_id c.notes with
    | some _ =>
      (.ok (),
        { c with
          notes := c.notes.map (fun p =>
            if p.1 = note_id then (p.1, p.2.set_style style_id) else p) })
    | none => (.error (.NoteNotFound note_id), c)
  | none => (.error (.StyleIndexNotFound style_index), c)

/-- Embedding of the private `NotesCollection::ensure_default_style`
(`Uuid::new_v4()` as the explicit `fresh` argument): when the default id does
not resolve, synthesize one default style if the map is empty, then point
`default_style` at the first key (nil uuid if none, which cannot happen). -/
def ensure_default_style (c : NotesCollection) (fresh : Uuid) : NotesCollection :=
  if hasK c.default_style c.styles then c
  else
    let styles1 :=
      if c.styles.isEmpty then insertK fresh NoteStyle.defaultStyle c.styles else c.styles
    { c with styles := styles1, default_style := headKeyD styles1 }

/-- Embedding of `NotesCollection::default()`: one default style and one fresh
note using it, nothing dirty, nothing deleted. -/
def defaultCollection (style_id note_id : Uuid) (now : Int) : NotesCollection :=
  { notes := [(note_id, NoteData.new style_id now)]
    styles := [(style_id, NoteStyle.defaultStyle)]
    default_style := style_id
    is_dirty := false
    deleted_notes := [] }

end NotesCollection

/-! Conversion from the legacy database (impl From of StickyNotesDatabase for
NotesCollection in src/src/notes/collection.rs). The font-string parser
`parse_font` and the palette HSV-to-RGB conversion live outside src/ (the
former is referenced but its defining code is not present under src/, the
latter is an external crate), so both enter the embedding as parameters; no
claim below depends on their values. -/

/-- External conversions used by the legacy import. -/
structure ImportConv where
  parseFont : String → Font
  hsvToColor : Rat → Rat → Rat → ColorM
  hsvDefault : ColorM

/-- Embedding of `cat.bgcolor_hsv.get(0..3)`: `some` (of exactly three
elements) iff the vector has length at least 3. -/
def sliceThree (l : List Rat) : Option (List Rat) :=
  if 3 ≤ l.length then some (l.take 3) else none

/-- Embedding of the per-category style construction inside the From
conversion, including the source's dead one- and two-element match arms. -/
def categoryToStyle (cv : ImportConv) (cat : SCategoryProperties) : NoteStyle :=
  let color :=
    match sliceThree cat.bgcolor_hsv with
    | some [h, s, v] => cv.hsvToColor h s v
    | some [h, s] => cv.hsvToColor h s 0
    | some [h] => cv.hsvToColor h 0 0
    | _ => cv.hsvDefault
  NoteStyle.new cat.name (cv.parseFont cat.font) color

/-- Embedding of the whole From conversion: map notes and categories in, point
`default_style` at the legacy default category, mark the collection dirty, and
repair via `ensure_default_style`. -/
def NotesCollection.fromSticky (cv : ImportConv) (db : StickyNotesDatabase)
    (fresh : Uuid) : NotesCollection :=
  let notes :=
    db.notes.map (fun src => (src.uuid, NoteData.new_from_import src db.properties.all_visible))
  let styles := db.categories.map (fun p => (p.1, categoryToStyle cv p.2))
  let inst : NotesCollection :=
    { notes := notes
      styles := styles
      default_style := db.properties.default_cat
      is_dirty := true
      deleted_notes := [] }
  inst.ensure_default_style fresh

/-! Legacy timestamp deserialization (src/src/notes/indicator_stickynotes.rs
lines 61-73 and src/src/notes/import.rs lines 27-38). Instants are `Int`
seconds since the epoch; naive datetimes are `Int` naive seconds. The
chrono `Local.from_local_datetime` resolution of a naive local datetime is a
`LocalResolve`; the string parsing step `NaiveDateTime::parse_from_str` is
factored out, so both deserializers are stated on the parsed naive value. -/

/-- Embedding of chrono `LocalResult` for a naive local datetime: nonexistent
(skipped by a forward clock jump), a single instant, or two instants
(ambiguous, repeated by a backward clock jump). -/
inductive LocalResolve
  | nonexistent
  | single (t : Int)
  | ambiguous (t1 t2 : Int)
deriving DecidableEq

/-- Embedding of `LocalResult::single()`. -/
def LocalResolve.toSingle : LocalResolve → Option Int
  | .single t => some t
  | _ => none

/-- A local timezone, as the resolution it gives each naive datetime. -/
structure LocalTz where
  fromLocal : Int → LocalResolve

/-- Embedding of `deserialize_from_str` in
src/src/notes/indicator_stickynotes.rs, after the naive parse: resolve as
local time; when not a single instant, fall back to `Local::now()` (the
explicit `now` argument). -/
def deserialize_naive_sticky (tz : LocalTz) (now : Int) (naive : Int) : Int :=
  ((tz.fromLocal naive).toSingle).getD now

/-- Embedding of `deserialize_from_str` in src/src/notes/import.rs, after the
naive parse: resolve as local time; when not a single instant, reinterpret the
naive datetime as UTC (the naive seconds taken as the instant). -/
def deserialize_naive_import (tz : LocalTz) (naive : Int) : Int :=
  ((tz.fromLocal naive).toSingle).getD naive

/-! Lemmas about the association-list map embedding. -/

theorem lookupK_eraseK_self {V : Type} (k : Uuid) (l : List (Uuid × V)) :
    lookupK k (eraseK k l) = none := by
  induction l with
  | nil => rfl
  | cons p t ih =>
    obtain ⟨k1, v⟩ := p
    by_cases h : k1 = k
    · simpa [eraseK, h] using ih
    · simpa [eraseK, h, lookupK] using ih

theorem lookupK_eraseK_ne {V : Type} (k j : Uuid) (l : List (Uuid × V)) (h : k ≠ j) :
    lookupK k (eraseK j l) = lookupK k l := by
  induction l with
  | nil => rfl
  | cons p t ih =>
    obtain ⟨k1, v⟩ := p
    by_cases h1 : k1 = j
    · subst h1
      have h2 : ¬(k1 = k) := fun hk => h hk.symm
      simp only [eraseK, if_pos rfl, lookupK, if_neg h2]
      exact ih
    · simp [eraseK, h1, lookupK, ih]

theorem hasK_eraseK_self {V : Type} (k : Uuid) (l : List (Uuid × V)) :
    hasK k (eraseK k l) = false := by
  simp [hasK, lookupK_eraseK_self]

theorem lookupK_append_of_none {V : Type} (k : Uuid) (l1 l2 : List (Uuid × V))
    (h : lookupK k l1 = none) : lookupK k (l1 ++ l2) = lookupK k l2 := by
  induction l1 with
  | nil => rfl
  | cons p t ih =>
    obtain ⟨k1, v⟩ := p
    by_cases h1 : k1 = k
    · simp [lookupK, h1] at h
    · simp only [lookupK, h1, if_neg h1] at h ⊢
      exact ih h

theorem lookupK_append_of_some {V : Type} (k : Uuid) (v : V) (l1 l2 : List (Uuid × V))
    (h : lookupK k l1 = some v) : lookupK k (l1 ++ l2) = some v := by
  induction l1 with
  | nil => simp [lookupK] at h
  | cons p t ih =>
    obtain ⟨k1, w⟩ := p
    by_cases h1 : k1 = k
    · simp only [lookupK, if_pos h1] at h ⊢
      exact h
    · simp only [lookupK, if_neg h1] at h ⊢
      exact ih h

theorem lookupK_insertK_self {V : Type} (k : Uuid) (v : V) (l : List (Uuid × V)) :
    lookupK k (insertK k v l) = some v := by
  unfold insertK
  rw [lookupK_append_of_none k _ _ (lookupK_eraseK_self k l)]
  simp [lookupK]

theorem lookupK_insertK_ne {V : Type} (k j : Uuid) (v : V) (l : List (Uuid × V))
    (h : k ≠ j) : lookupK k (insertK j v l) = lookupK k l := by
  unfold insertK
  cases h1 : lookupK k (eraseK j l) with
  | none =>
    rw [lookupK_append_of_none k _ _ h1]
    simp only [lookupK, if_neg (fun hk : j = k => h hk.symm)]
    rw [← lookupK_eraseK_ne k j l h, h1]
  | some w =>
    rw [lookupK_append_of_some k w _ _ h1, ← lookupK_eraseK_ne k j l h, h1]

theorem lookupK_mapVals {V : Type} (f : V → V) (k : Uuid) (l : List (Uuid × V)) :
    lookupK k (mapVals f l) = (lookupK k l).map f := by
  induction l with
  | nil => rfl
  | cons p t ih =>
    obtain ⟨k1, v⟩ := p
    by_cases h : k1 = k
    · simp [mapVals, lookupK, h]
    · simpa [mapVals, lookupK, h] using ih

theorem hasK_headKeyD {V : Type} (l : List (Uuid × V)) (h : l ≠ []) :
    hasK (headKeyD l) l = true := by
  cases l with
  | nil => exact absurd rfl h
  | cons p t =>
    obtain ⟨k, v⟩ := p
    simp [headKeyD, hasK, lookupK]

theorem lookupK_eq_none_of_not_mem {V : Type} (k : Uuid) (l : List (Uuid × V))
    (h : k ∉ keysOf l) : lookupK k l = none := by
  induction l with
  | nil => rfl
  | cons p t ih =>
    obtain ⟨k1, v⟩ := p
    simp only [keysOf, List.map_cons, List.mem_cons] at h
    push_neg at h
    simp only [lookupK, if_neg (fun hk : k1 = k => h.1 hk.symm)]
    exact ih (by simpa [keysOf] using h.2)

theorem eraseK_of_lookup_none {V : Type} (k : Uuid) (l : List (Uuid × V))
    (h : lookupK k l = none) : eraseK k l = l := by
  induction l with
  | nil => rfl
  | cons p t ih =>
    obtain ⟨k1, v⟩ := p
    by_cases h1 : k1 = k
    · simp [lookupK, h1] at h
    · simp only [lookupK, if_neg h1] at h
      simp [eraseK, h1, ih h]

theorem length_eraseK_of_nodup {V : Type} (k : Uuid) (l : List (Uuid × V)) (v : V)
    (hnd : (keysOf l).Nodup) (h : lookupK k l = some v) :
    (eraseK k l).length + 1 = l.length := by
  induction l with
  | nil => simp [lookupK] at h
  | cons p t ih =>
    obtain ⟨k1, w⟩ := p
    simp only [keysOf, List.map_cons, List.nodup_cons] at hnd
    by_cases h1 : k1 = k
    · subst h1
      have hnone : lookupK k1 t = none :=
        lookupK_eq_none_of_not_mem k1 t (by simpa [keysOf] using hnd.1)
      simp [eraseK, eraseK_of_lookup_none k1 t hnone]
    · simp only [lookupK, if_neg h1] at h
      simp only [eraseK, if_neg h1, List.length_cons]
      rw [← ih (by simpa [keysOf] using hnd.2) ]
      exact h ▸ rfl

theorem hasK_of_mem_keys {V : Type} (k : Uuid) (l : List (Uuid × V))
    (h : k ∈ keysOf l) : hasK k l = true := by
  induction l with
  | nil => simp [keysOf] at h
  | cons p t ih =>
    obtain ⟨k1, v⟩ := p
    simp only [keysOf, List.map_cons, List.mem_cons] at h
    by_cases h1 : k1 = k
    · simp [hasK, lookupK, h1]
    · have h2 : k ∈ keysOf t := by
        cases h with
        | inl heq => exact absurd heq.symm h1
        | inr hmem => simpa [keysOf] using hmem
      simpa [hasK, lookupK, h1] using ih h2

theorem hasK_of_keys_getElem {V : Type} (l : List (Uuid × V)) (i : Nat) (k : Uuid)
    (h : (keysOf l)[i]? = some k) : hasK k l = true :=
  hasK_of_mem_keys k l (List.getElem?_mem h)

theorem is_unsaved_commit_changes (c : NotesCollection) :
    c.commit_changes.is_unsaved = false := by
  simp [NotesCollection.commit_changes, NotesCollection.is_unsaved, mapVals,
    List.any_map, Function.comp, NoteData.commit, NoteStyle.commit,
    NoteData.is_changed, NoteStyle.is_changed]

/-! The default-style invariant and its preservation lemmas. -/

/-- The spec invariant: `default_style` resolves in the style map. -/
abbrev DefaultStyleOk (c : NotesCollection) : Prop :=
  hasK c.default_style c.styles = true

theorem defaultStyleOk_ensure (c : NotesCollection) (fresh : Uuid) :
    DefaultStyleOk (c.ensure_default_style fresh) := by
  unfold NotesCollection.ensure_default_style
  by_cases h : hasK c.default_style c.styles = true
  · rw [if_pos h]
    exact h
  · rw [if_neg h]
    apply hasK_headKeyD
    by_cases he : c.styles.isEmpty = true
    · rw [if_pos he]
      simp [insertK]
    · rw [if_neg he]
      intro hnil
      rw [hnil] at he
      exact he rfl

theorem defaultStyleOk_new_note (c : NotesCollection) (id : Uuid) (now : Int)
    (h : DefaultStyleOk c) : DefaultStyleOk (c.new_note id now) := h

theorem defaultStyleOk_delete_note (c : NotesCollection) (id : Uuid)
    (h : DefaultStyleOk c) : DefaultStyleOk (c.delete_note id) := by
  unfold NotesCollection.delete_note
  cases lookupK id c.notes <;> exact h

theorem defaultStyleOk_restore (c : NotesCollection) (id : Uuid)
    (h : DefaultStyleOk c) : DefaultStyleOk (c.try_restore_deleted_note id).2 := by
  unfold NotesCollection.try_restore_deleted_note
  cases h1 : lookupK id c.deleted_notes <;> simp only [h1] <;> exact h

theorem defaultStyleOk_new_style (c : NotesCollection) (id : Uuid) (name : String)
    (h : DefaultStyleOk c) : DefaultStyleOk (c.new_style id name) := by
  unfold NotesCollection.new_style
  unfold DefaultStyleOk hasK at h ⊢
  by_cases he : c.default_style = id
  · rw [he, lookupK_insertK_self]
    rfl
  · rw [lookupK_insertK_ne _ _ _ _ he]
    exact h

theorem defaultStyleOk_delete_style (c : NotesCollection) (id : Uuid)
    (hnd : (keysOf c.styles).Nodup) (h : DefaultStyleOk c) :
    DefaultStyleOk (c.delete_style id).2 := by
  unfold NotesCollection.delete_style
  by_cases hlen : c.styles.length < 2
  · rw [if_pos hlen]
    exact h
  · rw [if_neg hlen]
    cases h1 : lookupK id c.styles with
    | none => simp only [h1]; exact h
    | some s =>
      simp only [h1]
      unfold DefaultStyleOk
      by_cases hd : id = c.default_style
      · rw [if_pos hd]
        apply hasK_headKeyD
        have hlen2 : (eraseK id c.styles).length + 1 = c.styles.length :=
          length_eraseK_of_nodup id c.styles s hnd h1
        intro hnil
        rw [hnil] at hlen2
        simp at hlen2
        omega
      · rw [if_neg hd]
        unfold DefaultStyleOk hasK at h
        unfold hasK
        dsimp only
        rw [lookupK_eraseK_ne _ _ _ (fun he => hd he.symm)]
        exact h

theorem defaultStyleOk_set_default_by_index (c : NotesCollection) (i : Nat)
    (h : DefaultStyleOk c) : DefaultStyleOk (c.try_set_default_style_by_index i).2 := by
  unfold NotesCollection.try_set_default_style_by_index
  cases h1 : (keysOf c.styles)[i]? with
  | none => simp only [h1]; exact h
  | some id =>
    simp only [h1]
    by_cases h2 : c.default_style ≠ id
    · rw [if_pos h2]
      exact hasK_of_keys_getElem c.styles i id h1
    · rw [if_neg h2]
      exact h

theorem defaultStyleOk_set_note_style_by_index (c : NotesCollection)
    (note_id : Uuid) (i : Nat) (h : DefaultStyleOk c) :
    DefaultStyleOk (c.try_set_note_style_by_index note_id i).2 := by
  unfold NotesCollection.try_set_note_style_by_index
  cases h1 : (keysOf c.styles)[i]? with
  | none => simp only [h1]; exact h
  | some sid =>
    simp only [h1]
    cases h2 : lookupK note_id c.notes <;> simp only [h2] <;> exact h

theorem defaultStyleOk_commit_changes (c : NotesCollection)
    (h : DefaultStyleOk c) : DefaultStyleOk c.commit_changes := by
  unfold NotesCollection.commit_changes
  unfold DefaultStyleOk hasK at h ⊢
  rw [lookupK_mapVals]
  cases h1 : lookupK c.default_style c.styles with
  | none => rw [h1] at h; simp at h
  | some s => rfl

theorem defaultStyleOk_for_each_note (c : NotesCollection) (f : NoteData → NoteData)
    (h : DefaultStyleOk c) : DefaultStyleOk (c.for_each_note_mut f) := h

theorem defaultStyleOk_for_each_style (c : NotesCollection) (f : NoteStyle → NoteStyle)
    (h : DefaultStyleOk c) : DefaultStyleOk (c.for_each_style_mut f) := by
  unfold NotesCollection.for_each_style_mut
  unfold DefaultStyleOk hasK at h ⊢
  rw [lookupK_mapVals]
  cases h1 : lookupK c.default_style c.styles with
  | none => rw [h1] at h; simp at h
  | some s => rfl

/-! Claim C1: the default-style invariant across construction and mutation. -/

/-- C1 (amended): the default-style id resolves in the styles map for the
`Default` construction and for the legacy-import conversion (whose
`ensure_default_style` repairs a missing reference, synthesizing one default
style when the style map is empty), and the invariant is preserved by every
collection mutator (the `delete_style` case assumes the hash-map key
uniqueness that the association-list embedding makes explicit). `try_read`,
however, performs no repair: it returns exactly the deserialized fields, so a
durable blob that references a missing style yields a collection whose
`default_style` does not resolve. -/
theorem c1_default_style_invariant :
    (∀ sid nid now, DefaultStyleOk (NotesCollection.defaultCollection sid nid now))
  ∧ (∀ cv db fresh, DefaultStyleOk (NotesCollection.fromSticky cv db fresh))
  ∧ (∀ ns ss d, NotesCollection.try_read_model ns ss d =
      { notes := ns, styles := ss, default_style := d, is_dirty := false,
        deleted_notes := [] })
  ∧ (∀ c id now, DefaultStyleOk c → DefaultStyleOk (c.new_note id now))
  ∧ (∀ c id, DefaultStyleOk c → DefaultStyleOk (c.delete_note id))
  ∧ (∀ c id, DefaultStyleOk c → DefaultStyleOk (c.try_restore_deleted_note id).2)
  ∧ (∀ c id name, DefaultStyleOk c → DefaultStyleOk (c.new_style id name))
  ∧ (∀ c id, (keysOf c.styles).Nodup → DefaultStyleOk c →
       DefaultStyleOk (c.delete_style id).2)
  ∧ (∀ c i, DefaultStyleOk c → DefaultStyleOk (c.try_set_default_style_by_index i).2)
  ∧ (∀ c nid i, DefaultStyleOk c →
       DefaultStyleOk (c.try_set_note_style_by_index nid i).2)
  ∧ (∀ c, DefaultStyleOk c → DefaultStyleOk c.commit_changes)
  ∧ (∀ c f, DefaultStyleOk c → DefaultStyleOk (c.for_each_note_mut f))
  ∧ (∀ c f, DefaultStyleOk c → DefaultStyleOk (c.for_each_style_mut f)) := by
  refine ⟨?_, ?_, ?_, ?_, ?_, ?_, ?_, ?_, ?_, ?_, ?_, ?_, ?_⟩
  · intro sid nid now
    simp [NotesCollection.defaultCollection, DefaultStyleOk, hasK, lookupK]
  · intro cv db fresh
    exact defaultStyleOk_ensure _ fresh
  · intro ns ss d
    rfl
  · intro c id now h
    exact defaultStyleOk_new_note c id now h
  · intro c id h
    exact defaultStyleOk_delete_note c id h
  · intro c id h
    exact defaultStyleOk_restore c id h
  · intro c id name h
    exact defaultStyleOk_new_style c id name h
  · intro c id hnd h
    exact defaultStyleOk_delete_style c id hnd h
  · intro c i h
    exact defaultStyleOk_set_default_by_index c i h
  · intro c nid i h
    exact defaultStyleOk_set_note_style_by_index c nid i h
  · intro c h
    exact defaultStyleOk_commit_changes c h
  · intro c f h
    exact defaultStyleOk_for_each_note c f h
  · intro c f h
    exact defaultStyleOk_for_each_style c f h

/-- C1 counterexample: the claim is false on the `try_read` construction path.
Loading the durable blob whose JSON content has an empty styles map and a
non-nil `default_style` (the blob parses: both hash maps deserialize from
empty objects) yields a collection whose `default_style` does not resolve, and
no style was synthesized — `try_read` never repairs. -/
theorem c1_counterexample :
    hasK (NotesCollection.try_read_model [] [] 1).default_style
        (NotesCollection.try_read_model [] [] 1).styles = false
  ∧ (NotesCollection.try_read_model [] [] 1).styles = [] := by
  exact ⟨rfl, rfl⟩

/-- C1 witness: the invariant-preservation conjuncts applied at concrete
collections, discharging every hypothesis. -/
theorem c1_witness :
    DefaultStyleOk ((NotesCollection.defaultCollection 1 2 0).new_note 3 5)
  ∧ DefaultStyleOk ((NotesCollection.defaultCollection 1 2 0).delete_note 2)
  ∧ DefaultStyleOk
      (((NotesCollection.defaultCollection 1 2 0).delete_note 2).try_restore_deleted_note 2).2
  ∧ DefaultStyleOk ((NotesCollection.defaultCollection 1 2 0).new_style 7 DEF_NOTE_STYLE_NAME)
  ∧ DefaultStyleOk ((NotesCollection.defaultCollection 1 2 0).delete_style 1).2
  ∧ DefaultStyleOk ((NotesCollection.defaultCollection 1 2 0).try_set_default_style_by_index 0).2
  ∧ DefaultStyleOk ((NotesCollection.defaultCollection 1 2 0).try_set_note_style_by_index 2 0).2
  ∧ DefaultStyleOk (NotesCollection.defaultCollection 1 2 0).commit_changes
  ∧ DefaultStyleOk ((NotesCollection.defaultCollection 1 2 0).for_each_note_mut NoteData.commit)
  ∧ DefaultStyleOk
      ((NotesCollection.defaultCollection 1 2 0).for_each_style_mut NoteStyle.commit) := by
  refine ⟨?_, ?_, ?_, ?_, ?_, ?_, ?_, ?_, ?_, ?_⟩
  · exact c1_default_style_invariant.2.2.2.1 _ 3 5 (by decide)
  · exact c1_default_style_invariant.2.2.2.2.1 _ 2 (by decide)
  · exact c1_default_style_invariant.2.2.2.2.2.1 _ 2
      (c1_default_style_invariant.2.2.2.2.1 _ 2 (by decide))
  · exact c1_default_style_invariant.2.2.2.2.2.2.1 _ 7 DEF_NOTE_STYLE_NAME (by decide)
  · exact c1_default_style_invariant.2.2.2.2.2.2.2.1 _ 1 (by decide) (by decide)
  · exact c1_default_style_invariant.2.2.2.2.2.2.2.2.1 _ 0 (by decide)
  · exact c1_default_style_invariant.2.2.2.2.2.2.2.2.2.1 _ 2 0 (by decide)
  · exact c1_default_style_invariant.2.2.2.2.2.2.2.2.2.2.1 _ (by decide)
  · exact c1_default_style_invariant.2.2.2.2.2.2.2.2.2.2.2.1 _ NoteData.commit (by decide)
  · exact c1_default_style_invariant.2.2.2.2.2.2.2.2.2.2.2.2 _ NoteStyle.commit (by decide)

/-! Claim C2: interpretation of legacy timestamps without timezone. -/

/-- C2 (amended): a naive legacy timestamp that the local timezone resolves to
a single instant is interpreted as that local instant by both deserializers;
when the resolution is not a single instant (ambiguous or nonexistent local
time), the active legacy codec (indicator_stickynotes.rs) substitutes the
current local time `Local::now()` for it, while the alternate import module
(notes/import.rs) reinterprets the naive datetime as UTC. -/
theorem c2_timestamp_interpretation :
    (∀ tz now naive t, tz.fromLocal naive = .single t →
       deserialize_naive_sticky tz now naive = t
         ∧ deserialize_naive_import tz naive = t)
  ∧ (∀ tz now naive, (tz.fromLocal naive).toSingle = none →
       deserialize_naive_sticky tz now naive = now
         ∧ deserialize_naive_import tz naive = naive) := by
  constructor
  · intro tz now naive t h
    constructor
    · unfold deserialize_naive_sticky
      rw [h]
      rfl
    · unfold deserialize_naive_import
      rw [h]
      rfl
  · intro tz now naive h
    constructor
    · unfold deserialize_naive_sticky
      rw [h]
      rfl
    · unfold deserialize_naive_import
      rw [h]
      rfl

/-- C2 counterexample: for a timezone in which naive second 100 is ambiguous
(two instants, 50 and 60) and a current time of 999, the active legacy parser
returns the current time 999 and not the naive datetime reinterpreted as UTC
(which would be 100) — the claim is false of the parser the collection
actually uses. -/
theorem c2_counterexample :
    deserialize_naive_sticky ⟨fun _ => .ambiguous 50 60⟩ 999 100 = 999
  ∧ deserialize_naive_sticky ⟨fun _ => .ambiguous 50 60⟩ 999 100 ≠ 100
  ∧ deserialize_naive_import ⟨fun _ => .ambiguous 50 60⟩ 100 = 100 := by
  refine ⟨rfl, by decide, rfl⟩

/-- C2 witness: the amended theorem applied at a concrete timezone with one
single-instant naive datetime and one ambiguous one. -/
theorem c2_witness :
    deserialize_naive_sticky ⟨fun n => if n = 0 then .single 77 else .ambiguous 1 2⟩ 999 0 = 77
  ∧ deserialize_naive_import ⟨fun n => if n = 0 then .single 77 else .ambiguous 1 2⟩ 5 = 5 := by
  constructor
  · exact (c2_timestamp_interpretation.1 _ 999 0 77 (by decide)).1
  · exact (c2_timestamp_interpretation.2 _ 999 5 (by decide)).2

/-! Claim C3: note size components. -/

/-- C3 (amended): after `new` both size components are at least 1 (the default
geometry is 400 by 300); `new_from_import` replaces a legacy size array with
fewer than 2 elements wholly by (1, 1), but passes a two-element size array
through unchanged — including zero components; `set_size` stores its arguments
verbatim — including zeros. The spec's never-zero invariant is therefore only
established for missing legacy size fields, not for explicit zeros. -/
theorem c3_size_components :
    (∀ style now, 1 ≤ (NoteData.new style now).size.1
       ∧ 1 ≤ (NoteData.new style now).size.2)
  ∧ (∀ src vis, src.properties.size.length < 2 →
       (NoteData.new_from_import src vis).size = (1, 1))
  ∧ (∀ src vis a b rest, src.properties.size = a :: b :: rest →
       (NoteData.new_from_import src vis).size = (a, b))
  ∧ (∀ (n : NoteData) (w h : Nat), (n.set_size w h).size = (w, h)) := by
  refine ⟨?_, ?_, ?_, ?_⟩
  · intro style now
    exact ⟨by simp [NoteData.new, DEF_NOTE_WIDTH], by simp [NoteData.new, DEF_NOTE_HEIGHT]⟩
  · intro src vis h
    unfold NoteData.new_from_import
    have hs : sliceTwo src.properties.size = none := by
      unfold sliceTwo
      rw [if_neg (by omega)]
    rw [hs]
  · intro src vis a b rest h
    unfold NoteData.new_from_import
    have hs : sliceTwo src.properties.size = some [a, b] := by
      unfold sliceTwo
      rw [h]
      rw [if_pos (by simp)]
      simp [List.take]
    rw [hs]
  · intro n w h
    unfold NoteData.set_size
    by_cases hc : n.size = (w, h)
    · rw [if_pos hc]
      exact hc
    · rw [if_neg hc]

/-- C3 counterexample: `set_size` accepts and stores a zero height — the
resulting size component is 0, violating the claimed minimum of 1. -/
theorem c3_counterexample :
    ((NoteData.new 0 0).set_size 5 0).size.2 = 0
  ∧ ¬ 1 ≤ ((NoteData.new 0 0).set_size 5 0).size.2 := by
  exact ⟨rfl, by decide⟩

/-- C3 witness: the amended theorem applied at concrete notes and legacy
records. -/
theorem c3_witness :
    (NoteData.new_from_import ⟨4, [], 0, ⟨[], [9], false⟩, 1⟩ true).size = (1, 1)
  ∧ (NoteData.new_from_import ⟨4, [], 0, ⟨[], [0, 7], false⟩, 1⟩ true).size = (0, 7) := by
  constructor
  · exact c3_size_components.2.1 _ true (by decide)
  · exact c3_size_components.2.2.1 _ true 0 7 [] (by decide)

/-! Claim C4: delete_style on a present style among at least two styles. -/

/-- Characterization of the successful `delete_style` path: the entry is
erased, the collection flag is set, the default is re-pointed at the first
remaining key when it was deleted, and live notes pointing at the deleted
style are reassigned. -/
theorem delete_style_some_eq (c : NotesCollection) (id : Uuid) (s : NoteStyle)
    (hlen : 2 ≤ c.styles.length) (hs : lookupK id c.styles = some s) :
    c.delete_style id =
      (.ok (),
        { c with
          styles := eraseK id c.styles
          is_dirty := true
          default_style :=
            if id = c.default_style then headKeyD (eraseK id c.styles)
            else c.default_style
          notes := mapVals (fun note =>
            if note.style_id = id then
              note.set_style
                (if id = c.default_style then headKeyD (eraseK id c.styles)
                 else c.default_style)
            else note) c.notes }) := by
  unfold NotesCollection.delete_style
  rw [if_neg (by omega), hs]

/-- C4 (confirmed): on a collection whose styles form a genuine map (unique
keys — the hash-map representation invariant) that satisfies the spec's
default-style invariant, deleting a present style among at least two styles
succeeds; afterwards the deleted id is gone from the style map, the default
style resolves to a remaining style different from the deleted id (a
different one was picked when the deleted style was the default), no live
note references the deleted id, and every live note that referenced it now
references the new default style. -/
theorem c4_delete_style_correct (c : NotesCollection) (id : Uuid)
    (hnd : (keysOf c.styles).Nodup)
    (hlen : 2 ≤ c.styles.length)
    (hid : hasK id c.styles = true)
    (hdef : DefaultStyleOk c) :
    (c.delete_style id).1 = .ok ()
  ∧ hasK id (c.delete_style id).2.styles = false
  ∧ hasK (c.delete_style id).2.default_style (c.delete_style id).2.styles = true
  ∧ (c.delete_style id).2.default_style ≠ id
  ∧ (id = c.default_style → (c.delete_style id).2.default_style ≠ c.default_style)
  ∧ (∀ k n, lookupK k (c.delete_style id).2.notes = some n → n.style_id ≠ id)
  ∧ (∀ k n, lookupK k c.notes = some n → n.style_id = id →
       lookupK k (c.delete_style id).2.notes =
         some (n.set_style (c.delete_style id).2.default_style)) := by
  obtain ⟨s, hs⟩ : ∃ s, lookupK id c.styles = some s := by
    unfold hasK at hid
    exact Option.isSome_iff_exists.mp hid
  rw [delete_style_some_eq c id s hlen hs]
  have hlen2 : (eraseK id c.styles).length + 1 = c.styles.length :=
    length_eraseK_of_nodup id c.styles s hnd hs
  have hne : eraseK id c.styles ≠ [] := by
    intro hnil
    rw [hnil] at hlen2
    simp at hlen2
    omega
  have hd_res : hasK (if id = c.default_style then headKeyD (eraseK id c.styles)
      else c.default_style) (eraseK id c.styles) = true := by
    by_cases hd : id = c.default_style
    · rw [if_pos hd]
      exact hasK_headKeyD _ hne
    · rw [if_neg hd]
      unfold DefaultStyleOk hasK at hdef
      unfold hasK
      rw [lookupK_eraseK_ne _ _ _ (fun he => hd he.symm)]
      exact hdef
  have hd_ne : (if id = c.default_style then headKeyD (eraseK id c.styles)
      else c.default_style) ≠ id := by
    intro heq
    rw [heq] at hd_res
    rw [hasK_eraseK_self] at hd_res
    exact Bool.false_ne_true hd_res
  refine ⟨rfl, ?_, ?_, ?_, ?_, ?_, ?_⟩
  · exact hasK_eraseK_self id c.styles
  · exact hd_res
  · exact hd_ne
  · intro hd
    rw [if_pos hd] at hd_ne ⊢
    rw [← hd]
    exact hd_ne
  · intro k n hkn
    dsimp only at hkn
    rw [lookupK_mapVals] at hkn
    cases h0 : lookupK k c.notes with
    | none => rw [h0] at hkn; simp at hkn
    | some n0 =>
      rw [h0] at hkn
      simp only [Option.map_some'] at hkn
      by_cases hsty : n0.style_id = id
      · rw [if_pos hsty] at hkn
        unfold NoteData.set_style at hkn
        rw [if_neg (by rw [hsty]; exact fun he => hd_ne he.symm)] at hkn
        injection hkn with hkn
        rw [← hkn]
        exact hd_ne
      · rw [if_neg hsty] at hkn
        injection hkn with hkn
        rw [← hkn]
        exact hsty
  · intro k n hkn hsty
    dsimp only
    rw [lookupK_mapVals, hkn]
    simp only [Option.map_some', if_pos hsty]

/-- C4 witness: the theorem applied at a concrete two-style collection whose
default style is the deleted one and whose single live note points at it. -/
theorem c4_witness :
    (({ notes := [(10, NoteData.new 1 0)]
        styles := [(1, NoteStyle.defaultStyle), (2, NoteStyle.defaultStyle)]
        default_style := 1
        is_dirty := false
        deleted_notes := [] } : NotesCollection).delete_style 1).1 = .ok () :=
  (c4_delete_style_correct _ 1 (by decide) (by decide) (by decide) (by decide)).1

/-! Claim C5: delete_style on a single-style collection. -/

/-- C5 (confirmed): on a collection holding exactly one style, `delete_style`
returns the `DeleteLastStyle` error for every argument — present or not — and
returns the collection completely unchanged (style map, default id, notes,
deleted notes, and dirty flag included). -/
theorem c5_delete_last_style (c : NotesCollection) (id : Uuid)
    (h1 : c.styles.length = 1) :
    c.delete_style id = (.error .DeleteLastStyle, c) := by
  unfold NotesCollection.delete_style
  rw [if_pos (by omega)]

/-- C5 witness: the theorem applied at the default collection (one style),
both for its present style id and for an absent id. -/
theorem c5_witness :
    (NotesCollection.defaultCollection 1 2 0).delete_style 1 =
      (.error .DeleteLastStyle, NotesCollection.defaultCollection 1 2 0)
  ∧ (NotesCollection.defaultCollection 1 2 0).delete_style 42 =
      (.error .DeleteLastStyle, NotesCollection.defaultCollection 1 2 0) :=
  ⟨c5_delete_last_style _ 1 (by decide), c5_delete_last_style _ 42 (by decide)⟩

/-! Claim C7: soft delete followed by restore. -/

/-- Characterization of `delete_note` on a live id. -/
theorem delete_note_some_eq (c : NotesCollection) (id : Uuid) (n : NoteData)
    (h : lookupK id c.notes = some n) :
    c.delete_note id =
      { c with
        notes := eraseK id c.notes
        is_dirty := true
        deleted_notes := insertK id n c.deleted_notes } := by
  unfold NotesCollection.delete_note
  rw [h]

/-- Characterization of `try_restore_deleted_note` on a deleted id: the moved
note is returned and the id moves back to the live map. -/
theorem restore_some_eq (c : NotesCollection) (id : Uuid) (n : NoteData)
    (h : lookupK id c.deleted_notes = some n) :
    c.try_restore_deleted_note id =
      (.ok n,
        { c with
          deleted_notes := eraseK id c.deleted_notes
          is_dirty := true
          notes := insertK id n c.notes }) := by
  unfold NotesCollection.try_restore_deleted_note
  rw [h]
  dsimp only
  rw [lookupK_insertK_self]

/-- C7 (confirmed): deleting a live note and then restoring the same id
succeeds and reinstates the identical note value (hence equal ignoring the
dirty bit) in the live map, with the id gone from the deleted side table; the
collection flag is set after the delete and after the restore, and
`commit_changes` brings `is_unsaved` back to false after either operation. -/
theorem c7_delete_then_restore (c : NotesCollection) (id : Uuid) (n : NoteData)
    (h : lookupK id c.notes = some n) :
    (c.delete_note id).is_dirty = true
  ∧ ((c.delete_note id).try_restore_deleted_note id).1 = .ok n
  ∧ lookupK id ((c.delete_note id).try_restore_deleted_note id).2.notes = some n
  ∧ hasK id ((c.delete_note id).try_restore_deleted_note id).2.deleted_notes = false
  ∧ ((c.delete_note id).try_restore_deleted_note id).2.is_dirty = true
  ∧ (c.delete_note id).commit_changes.is_unsaved = false
  ∧ ((c.delete_note id).try_restore_deleted_note id).2.commit_changes.is_unsaved = false := by
  rw [delete_note_some_eq c id n h]
  rw [restore_some_eq _ id n (lookupK_insertK_self id n c.deleted_notes)]
  refine ⟨rfl, rfl, ?_, ?_, rfl, ?_, ?_⟩
  · exact lookupK_insertK_self id n (eraseK id c.notes)
  · exact hasK_eraseK_self id (insertK id n c.deleted_notes)
  · exact is_unsaved_commit_changes _
  · exact is_unsaved_commit_changes _

/-- C7 witness: the theorem applied at the default collection and its one
live note. -/
theorem c7_witness :
    lookupK 2 (((NotesCollection.defaultCollection 1 2 0).delete_note 2).try_restore_deleted_note
      2).2.notes = some (NoteData.new 1 0) :=
  (c7_delete_then_restore (NotesCollection.defaultCollection 1 2 0) 2 (NoteData.new 1 0)
    (by decide)).2.2.1

/-! Claim C8: failed mutators leave the collection unchanged. -/

/-- C8 (confirmed): whenever `delete_style`, `try_restore_deleted_note`,
`try_set_default_style_by_index` or `try_set_note_style_by_index` returns an
error, the collection state after the call is exactly the state before it
(notes, deleted notes, styles, default id, and dirty flags included). -/
theorem c8_error_leaves_unchanged (c : NotesCollection) :
    (∀ id e, (c.delete_style id).1 = .error e → (c.delete_style id).2 = c)
  ∧ (∀ id e, (c.try_restore_deleted_note id).1 = .error e →
       (c.try_restore_deleted_note id).2 = c)
  ∧ (∀ i e, (c.try_set_default_style_by_index i).1 = .error e →
       (c.try_set_default_style_by_index i).2 = c)
  ∧ (∀ nid i e, (c.try_set_note_style_by_index nid i).1 = .error e →
       (c.try_set_note_style_by_index nid i).2 = c) := by
  refine ⟨?_, ?_, ?_, ?_⟩
  · intro id e h
    unfold NotesCollection.delete_style at h ⊢
    by_cases hlen : c.styles.length < 2
    · rw [if_pos hlen]
    · rw [if_neg hlen] at h ⊢
      cases h1 : lookupK id c.styles with
      | none => simp only [h1]
      | some s =>
        rw [h1] at h
        simp at h
  · intro id e h
    unfold NotesCollection.try_restore_deleted_note at h ⊢
    cases h1 : lookupK id c.deleted_notes with
    | none => simp only [h1]
    | some n =>
      rw [h1] at h
      dsimp only at h
      rw [lookupK_insertK_self] at h
      simp at h
  · intro i e h
    unfold NotesCollection.try_set_default_style_by_index at h ⊢
    cases h1 : (keysOf c.styles)[i]? with
    | none => simp only [h1]
    | some id =>
      rw [h1] at h
      dsimp only at h ⊢
      by_cases h2 : c.default_style ≠ id
      · rw [if_pos h2] at h
        simp at h
      · rw [if_neg h2] at h
        simp at h
  · intro nid i e h
    unfold NotesCollection.try_set_note_style_by_index at h ⊢
    cases h1 : (keysOf c.styles)[i]? with
    | none => simp only [h1]
    | some sid =>
      rw [h1] at h
      dsimp only at h ⊢
      cases h2 : lookupK nid c.notes with
      | none => rfl
      | some n0 =>
        rw [h2] at h
        simp at h

/-- C8 witness: the four conjuncts applied at the default collection on
concrete failing inputs (too few styles, an unknown deleted id, an
out-of-range style index, and an unknown note id). -/
theorem c8_witness :
    ((NotesCollection.defaultCollection 1 2 0).delete_style 9).2 =
      NotesCollection.defaultCollection 1 2 0
  ∧ ((NotesCollection.defaultCollection 1 2 0).try_restore_deleted_note 5).2 =
      NotesCollection.defaultCollection 1 2 0
  ∧ ((NotesCollection.defaultCollection 1 2 0).try_set_default_style_by_index 3).2 =
      NotesCollection.defaultCollection 1 2 0
  ∧ ((NotesCollection.defaultCollection 1 2 0).try_set_note_style_by_index 99 0).2 =
      NotesCollection.defaultCollection 1 2 0 :=
  ⟨(c8_error_leaves_unchanged _).1 9 .DeleteLastStyle rfl,
   (c8_error_leaves_unchanged _).2.1 5 (.NoteNotFound 5) rfl,
   (c8_error_leaves_unchanged _).2.2.1 3 (.StyleIndexNotFound 3) rfl,
   (c8_error_leaves_unchanged _).2.2.2 99 0 (.NoteNotFound 99) rfl⟩

/-! Claim C9: the note title derivation. -/

/-- C9 (amended): with empty content `get_title` returns the empty-content
sentinel; with non-empty content it returns the first line truncated to the
fixed character count — in particular, when the first line is empty the
result is the empty string, not the untitled sentinel: the `NO_TITLE` arm of
the source is unreachable, because `lines().next()` is `Some` on every
non-empty string. -/
theorem c9_get_title (n : NoteData) :
    (n.content = [] → n.get_title = EMTPY_TITLE)
  ∧ (∀ line, rustLinesFirst n.content = some line →
       n.get_title = line.take MAX_TITLE_CHARS)
  ∧ (∀ cs, n.content = '\n' :: cs → n.get_title = []) := by
  have key : ∀ line, rustLinesFirst n.content = some line →
      n.get_title = line.take MAX_TITLE_CHARS := by
    intro line hline
    have hc : ¬n.content = [] := by
      intro h0
      rw [h0] at hline
      simp [rustLinesFirst] at hline
    unfold NoteData.get_title
    rw [if_neg hc, hline]
    dsimp only
    unfold charIndexAt
    by_cases hl : MAX_TITLE_CHARS < line.length
    · rw [if_pos hl]
    · rw [if_neg hl]
      dsimp only
      exact (List.take_of_length_le (by omega)).symm
  refine ⟨?_, key, ?_⟩
  · intro h
    unfold NoteData.get_title
    rw [if_pos h]
  · intro cs hcs
    have h1 : rustLinesFirst n.content = some [] := by
      rw [hcs]
      rfl
    rw [key [] h1]
    rfl

/-- C9 counterexample: a note whose content is non-empty but starts with a
line feed (empty first line). The claim says the title is the untitled
sentinel; the code yields the empty string. -/
theorem c9_counterexample :
    (⟨['\n', 'a', 'b', 'c'], 0, 0, (0, 0), (1, 1), false, true, false⟩ :
        NoteData).get_title = []
  ∧ (⟨['\n', 'a', 'b', 'c'], 0, 0, (0, 0), (1, 1), false, true, false⟩ :
        NoteData).content ≠ []
  ∧ NO_TITLE ≠ ([] : List Char) := by
  refine ⟨rfl, by decide, by decide⟩

/-- C9 witness: the amended theorem applied at concrete notes — empty
content, a long first line (truncated to 12 characters), and an empty first
line. -/
theorem c9_witness :
    (⟨[], 0, 0, (0, 0), (1, 1), false, true, false⟩ : NoteData).get_title = EMTPY_TITLE
  ∧ (⟨['a', 'b', 'c'], 0, 0, (0, 0), (1, 1), false, true, false⟩ :
       NoteData).get_title = ['a', 'b', 'c']
  ∧ (⟨['\n', 'x'], 0, 0, (0, 0), (1, 1), false, true, false⟩ : NoteData).get_title = [] := by
  refine ⟨?_, ?_, ?_⟩
  · exact (c9_get_title _).1 rfl
  · exact (c9_get_title _).2.1 ['a', 'b', 'c'] rfl
  · exact (c9_get_title _).2.2 ['x'] rfl

/-! Claim C10: dirty tracking ignores the deleted-notes side table. -/

/-- C10 (confirmed): `is_unsaved` does not consult `deleted_notes` at all (its
value is invariant under replacing the side table, so it is false whenever the
collection flag is clear and all live notes and styles are clean, however
dirty the deleted notes are), and `commit_changes` leaves the deleted notes —
dirty bits included — exactly as they were. -/
theorem c10_dirty_excludes_deleted :
    (∀ (c : NotesCollection) (d : List (Uuid × NoteData)),
       ({ c with deleted_notes := d } : NotesCollection).is_unsaved = c.is_unsaved)
  ∧ (∀ c : NotesCollection, c.commit_changes.deleted_notes = c.deleted_notes)
  ∧ (∀ c : NotesCollection, c.is_dirty = false →
       (∀ p ∈ c.notes, (p : Uuid × NoteData).2.is_dirty = false) →
       (∀ p ∈ c.styles, (p : Uuid × NoteStyle).2.is_dirty = false) →
       c.is_unsaved = false) := by
  refine ⟨?_, ?_, ?_⟩
  · intro c d
    rfl
  · intro c
    rfl
  · intro c h1 h2 h3
    have hn : c.notes.any (fun p => p.2.is_changed) = false := by
      rw [List.any_eq_false]
      intro p hp
      simp [NoteData.is_changed, h2 p hp]
    have hs : c.styles.any (fun p => p.2.is_changed) = false := by
      rw [List.any_eq_false]
      intro p hp
      simp [NoteStyle.is_changed, h3 p hp]
    unfold NotesCollection.is_unsaved
    rw [h1, hn, hs]
    rfl

/-- C10 witness: a collection with a clear collection flag, one clean live
note, one clean style, and one deleted note whose dirty bit is set is still
reported as saved. -/
theorem c10_witness :
    ({ notes := [(1, NoteData.new 1 0)]
       styles := [(1, NoteStyle.defaultStyle)]
       default_style := 1
       is_dirty := false
       deleted_notes := [(2, { NoteData.new 1 0 with is_dirty := true })] } :
      NotesCollection).is_unsaved = false :=
  c10_dirty_excludes_deleted.2.2 _ rfl (by decide) (by decide)

end StickyNotes
